import Mathlib

/-!
Verification of the `bg-remove` batch image pipeline (`src/main.py`).

The development shallowly embeds the three components with algorithmic
content — the dark-mode color inverter `invert_dark_colors`, the output
path resolver `generate_output_path`, and the batch orchestrator in
`main` — and proves the spec's testable properties about them.

Modelling conventions:
* 8-bit channel values are `Nat` with a well-formedness predicate `≤ 255`
  (numpy's `uint8` can hold nothing else);
* the float64 brightness of line 41 is modelled bit-exactly: every
  double arising there is an integer multiple of `2 ^ (-56)`, so the
  constants, products and sums are computed on `2 ^ 56`-scaled natural
  numbers with explicit round-to-nearest-even (`flScaled`);
* the boost multiplication is modelled as exact rational multiplication
  followed by the clip and the truncation; no claim below depends on the
  numeric value of a boosted channel;
* `astype(np.uint8)` after `np.clip(·, 0, 255)` truncates a value already
  in `[0, 255]`, i.e. takes its floor;
* the filesystem and the segmentation model are abstracted as function
  parameters (`ex : String → Bool` for `os.path.exists`, `rb` for the
  success of one `remove_background` call, `segment` for the RGBA image
  the model returns).
-/

/-- One RGBA pixel: four 8-bit channels, kept as `Nat`. -/
structure Pixel where
  r : ℕ
  g : ℕ
  b : ℕ
  a : ℕ
  deriving DecidableEq, Repr

/-- An image buffer: a list of rows of pixels (the numpy `H×W×4` array). -/
abbrev Image := List (List Pixel)

/-- A channel value fits in a `uint8`. -/
def wfPixel (p : Pixel) : Prop := p.r ≤ 255 ∧ p.g ≤ 255 ∧ p.b ≤ 255 ∧ p.a ≤ 255

instance : DecidablePred wfPixel := fun p => by unfold wfPixel; infer_instance

/-- Every pixel of the buffer is well formed. -/
def wfImage (img : Image) : Prop := ∀ row ∈ img, ∀ p ∈ row, wfPixel p

/-- Row lengths of a buffer: together with the row count this is its shape. -/
def shape (img : Image) : List ℕ := img.map List.length

/-- The alpha plane `img_array[:, :, 3]`. -/
def alphaPlane (img : Image) : List (List ℕ) := img.map (List.map Pixel.a)

/-! ### Float64 brightness

Line 41 computes `brightness = 0.299*R + 0.587*G + 0.114*B` in numpy
float64: the three literals are the binary64 doubles nearest those
decimals, and each product and each addition (left-associated) is
rounded to the nearest double, ties to even.  Every value the program
meets here lies in `[0, 256)` and every intermediate double in that
range is an integer multiple of `2 ^ (-56)` (the smallest nonzero value
is the `0.114` literal, with exponent `-4` and ulp `2 ^ (-56)`), so the
whole computation is carried out exactly on numerators scaled by
`2 ^ 56`, in plain `ℕ`. -/

/-- Length in bits of `n` (`0` for `0`), by fuel recursion so that it
reduces in the kernel; the fuel covers every `n < 2 ^ 128`. -/
def bitLenAux : ℕ → ℕ → ℕ
  | 0, _ => 0
  | fuel + 1, n => if n = 0 then 0 else bitLenAux fuel (n / 2) + 1

def bitLen (n : ℕ) : ℕ := bitLenAux 128 n

/-- Round `a / d` to the nearest integer, ties to even. -/
def roundNE (a d : ℕ) : ℕ :=
  let q := a / d
  let r := a % d
  if 2 * r > d then q + 1
  else if 2 * r < d then q
  else if q % 2 = 0 then q else q + 1

/-- Round `n / 2 ^ 56` to the nearest binary64 double (53-bit mantissa,
ties to even), returning the result times `2 ^ 56`.  A value of at most
53 bits is exactly representable (its ulp is at most `2 ^ (-56)` on this
domain); otherwise the mantissa is rounded at `bitLen n - 53` bits. -/
def flScaled (n : ℕ) : ℕ :=
  if bitLen n ≤ 53 then n
  else roundNE n (2 ^ (bitLen n - 53)) * 2 ^ (bitLen n - 53)

/-- The binary64 double nearest `num / den`, times `2 ^ 56` — the value
of a decimal literal such as `0.299` (faithful for values in
`[2 ^ (-4), 2 ^ 70)` and for `0`, which covers this development). -/
def floatOfRat56 (num den : ℕ) : ℕ :=
  if num = 0 then 0
  else
    let b := bitLen (num * 2 ^ 56 / den)
    if b ≤ 53 then roundNE (num * 2 ^ 56) den
    else roundNE (num * 2 ^ (109 - b)) den * 2 ^ (b - 53)

/-- Perceived luminance of a pixel, line 41 of `main.py`:
`0.299 * rgb[..,0] + 0.587 * rgb[..,1] + 0.114 * rgb[..,2]` in float64
(uint8 channels are exact doubles; each constant, product and sum is
rounded), scaled by `2 ^ 56`. -/
def brightness (p : Pixel) : ℕ :=
  flScaled
    (flScaled (flScaled (floatOfRat56 299 1000 * p.r) + flScaled (floatOfRat56 587 1000 * p.g)) +
      flScaled (floatOfRat56 114 1000 * p.b))

/-- Membership in the dark mask, line 44: `brightness < threshold`
(strict, in float64; the CLI integer threshold in `[0, 255]` is an exact
double, so the comparison is exact on the scaled values). -/
def isDark (p : Pixel) (threshold : ℤ) : Bool :=
  decide ((brightness p : ℤ) < threshold * 2 ^ 56)

/-- Modelled from the spec (§4.2 step 2): the idealized real-valued luma
`0.299·R + 0.587·G + 0.114·B`, exact in `ℚ`.  The program itself never
computes this — line 41 is the float64 `brightness` — but the boundary
claims are phrased in terms of it. -/
def lumaExact (p : Pixel) : ℚ := (299 * p.r + 587 * p.g + 114 * p.b : ℚ) / 1000

/-- Lines 52-56 applied to one channel: multiply by the boost factor,
`np.clip` into `[0, 255]`, and truncate back to `uint8` (values are
nonnegative after the clip, so truncation is the floor). -/
def boostChannel (c : ℕ) (boost : ℚ) : ℕ :=
  (Int.floor (min 255 (max 0 ((c : ℚ) * boost)))).toNat

/-- The action of `invert_dark_colors` on one pixel.  The dark mask is
computed from the original channels; dark pixels become `255 - c`
(`uint8` arithmetic, exact since `c ≤ 255`), then — only when
`brightness_boost != 1.0` — the just-inverted values are boosted and
clipped.  Non-dark pixels are untouched (the `astype(float)` /
`astype(np.uint8)` round trip on lines 52-56 is the identity on integers
in `[0, 255]`).  Alpha is carried through unchanged. -/
def invertPixel (threshold : ℤ) (boost : ℚ) (p : Pixel) : Pixel :=
  if isDark p threshold then
    if boost ≠ 1 then
      { r := boostChannel (255 - p.r) boost
        g := boostChannel (255 - p.g) boost
        b := boostChannel (255 - p.b) boost
        a := p.a }
    else
      { r := 255 - p.r, g := 255 - p.g, b := 255 - p.b, a := p.a }
  else p

/-- `invert_dark_colors` (lines 20-61): the per-pixel transform applied
across the whole buffer; the alpha plane is split off and recombined
unchanged. -/
def invert_dark_colors (img : Image) (threshold : ℤ) (boost : ℚ) : Image :=
  img.map (List.map (invertPixel threshold boost))

/-- The `255 - c` complement of the RGB channels, alpha untouched. -/
def complement (p : Pixel) : Pixel :=
  { r := 255 - p.r, g := 255 - p.g, b := 255 - p.b, a := p.a }

/-- The pixel at row `i`, column `j`, if in bounds. -/
def pixelAt (img : Image) (i j : ℕ) : Option Pixel :=
  img[i]?.bind fun row => row[j]?

-- Helper lemmas about the per-pixel structure.

theorem invertPixel_a (t : ℤ) (b : ℚ) (p : Pixel) : (invertPixel t b p).a = p.a := by
  unfold invertPixel
  split
  · split <;> rfl
  · rfl

theorem pixelAt_map (f : Pixel → Pixel) (img : Image) (i j : ℕ) :
    pixelAt (img.map (List.map f)) i j = (pixelAt img i j).map f := by
  unfold pixelAt
  rw [List.getElem?_map]
  cases img[i]? with
  | none => rfl
  | some row => simp [List.getElem?_map]

/-! ## Output path resolver (`generate_output_path`, lines 119-136)

`pathlib` is an external collaborator; the fragment the resolver uses
(`Path.stem`, `Path.parent`, `Path.__truediv__`, `str`) is modelled on
POSIX paths: a path is a root flag plus its non-empty, non-`"."`
components. -/

/-- `True`-ness of the optional `output_path` argument: Python's
`if output_path:` is false for `None` and for the empty string. -/
def truthy (o : Option String) : Bool :=
  match o with
  | none => false
  | some s => !s.isEmpty

/-- Split a character list on `'/'`, Python's `str.split("/")`. -/
def splitSlash : List Char → List (List Char)
  | [] => [[]]
  | c :: rest =>
    match splitSlash rest with
    | [] => [[]]
    | h :: t => if c = '/' then [] :: h :: t else (c :: h) :: t

/-- The path components `pathlib` keeps: split on `/`, drop empty and
`"."` entries. -/
def pathComps (s : String) : List String :=
  ((splitSlash s.toList).map List.asString).filter fun c => c ≠ "" && c ≠ "."

/-- Whether the path is absolute (`pathlib`'s root). -/
def pathIsAbs (s : String) : Bool :=
  match s.toList with
  | '/' :: _ => true
  | _ => false

/-- `str` of a `pathlib` path with the given root flag and components. -/
def renderPath (abs : Bool) (cs : List String) : String :=
  if cs.isEmpty then (if abs then "/" else ".")
  else (if abs then "/" else "") ++ String.intercalate "/" cs

/-- `Path(s).name`: the final component, or `""` for an empty path. -/
def pyName (s : String) : String := (pathComps s).getLast?.getD ""

/-- Index of the last `'.'` in the list of characters, if any. -/
def lastDotIdx (cs : List Char) : Option ℕ :=
  (cs.reverse.findIdx? (· = '.')).map fun k => cs.length - 1 - k

/-- `Path(s).stem`: the name with its last suffix removed; a suffix needs
a dot that is neither the first nor the last character of the name. -/
def pyStem (s : String) : String :=
  let name := pyName s
  match lastDotIdx name.toList with
  | some i => if 0 < i ∧ i + 1 < name.length then (name.toList.take i).asString else name
  | none => name

/-- `str(Path(s).parent)`: drop the final component. -/
def pyParent (s : String) : String :=
  renderPath (pathIsAbs s) (pathComps s).dropLast

/-- `str(Path(dir) / name)` for a relative `name`. -/
def pyJoin (dir name : String) : String :=
  renderPath (pathIsAbs dir) (pathComps dir ++ pathComps name)

/-- `generate_output_path` (lines 119-136): honor a truthy explicit
output verbatim, else `str(Path(input).parent / (stem + suffix + ".png"))`. -/
def generate_output_path (input_path : String) (output_path : Option String)
    (suffix : String) : String :=
  if truthy output_path then output_path.getD ""
  else pyJoin (pyParent input_path) (pyStem input_path ++ suffix ++ ".png")

/-! ## Batch orchestrator (`main`, lines 202-248)

The filesystem and the segmentation pipeline are abstracted: `ex`
answers `os.path.exists`, and `rb input output` tells whether the
`remove_background` call for that job returned `True` (decode, model
inference and encode all succeeded). -/

/-- Parsed CLI arguments after `argparse` (lines 152-202). -/
structure Args where
  input : List String
  output : Option String
  suffix : String
  fast : Bool
  darkMode : Bool
  invertThreshold : ℤ
  brightnessBoost : ℚ
  quiet : Bool

/-- Terminal outcome of one job in the batch loop (lines 215-241). -/
inductive JobOutcome where
  | written
  | missing
  | failed
  deriving DecidableEq, Repr

/-- Whether the outcome counts into `success_count`. -/
def JobOutcome.isWritten : JobOutcome → Bool
  | .written => true
  | _ => false

/-- One iteration of the loop body (lines 215-241): a missing input is
recorded and skipped; otherwise the job succeeds or fails according to
`remove_background`. -/
def runJob (ex : String → Bool) (rb : String → String → Bool) (args : Args)
    (input_file : String) : JobOutcome :=
  if !ex input_file then .missing
  else if rb input_file (generate_output_path input_file args.output args.suffix) then
    .written
  else .failed

/-- The whole batch loop, in input order, never aborting early. -/
def runJobs (ex : String → Bool) (rb : String → String → Bool) (args : Args) :
    List JobOutcome :=
  args.input.map (runJob ex rb args)

/-- `success_count` (lines 212, 236). -/
def successCount (rs : List JobOutcome) : ℕ := rs.countP JobOutcome.isWritten

/-- The final tally (line 245): succeeded out of total. -/
def batchSummary (rs : List JobOutcome) : ℕ × ℕ := (successCount rs, rs.length)

/-- `main` after argument parsing: the usage check on lines 205-206
(`parser.error` exits with status 2 before any job runs), then the batch
loop and the final `sys.exit(0 if success_count == total_count else 1)`.
Returns the exit status and the list of per-job outcomes. -/
def mainModel (ex : String → Bool) (rb : String → String → Bool) (args : Args) :
    ℕ × List JobOutcome :=
  if truthy args.output ∧ 1 < args.input.length then (2, [])
  else
    ((if successCount (runJobs ex rb args) = (runJobs ex rb args).length then 0
      else 1),
      runJobs ex rb args)

/-! ## The written image (`remove_background`, lines 64-116)

`segment model input` abstracts decode → RGB conversion → model
inference: the RGBA buffer the segmentation step yields for that input.
The saved image is that buffer, run through the inverter exactly when
`dark_mode` is set (lines 100-107). -/

def savedImage (segment : String → String → Image) (model_name : String)
    (input_path : String) (dark_mode : Bool) (invert_threshold : ℤ)
    (brightness_boost : ℚ) : Image :=
  let seg := segment model_name input_path
  if dark_mode then invert_dark_colors seg invert_threshold brightness_boost else seg

/-! ## Supporting lemmas -/

set_option maxRecDepth 8192

theorem complement_complement (p : Pixel) (h : wfPixel p) :
    complement (complement p) = p := by
  obtain ⟨r, g, b, a⟩ := p
  obtain ⟨hr, hg, hb, _⟩ := h
  have hr2 : r ≤ 255 := hr
  have hg2 : g ≤ 255 := hg
  have hb2 : b ≤ 255 := hb
  simp only [complement, Pixel.mk.injEq]
  refine ⟨?_, ?_, ?_, trivial⟩ <;> omega

theorem complement_ne (p : Pixel) : complement p ≠ p := by
  intro heq
  have hr : (complement p).r = p.r := congrArg Pixel.r heq
  simp only [complement] at hr
  omega

theorem runJob_isWritten (ex : String → Bool) (rb : String → String → Bool)
    (args : Args) (f : String) :
    (runJob ex rb args f).isWritten = true ↔
      ex f = true ∧ rb f (generate_output_path f args.output args.suffix) = true := by
  unfold runJob
  cases hex : ex f <;>
    cases hrb : rb f (generate_output_path f args.output args.suffix) <;>
      simp [JobOutcome.isWritten, hex, hrb]

theorem successCount_eq_length_iff (ex : String → Bool) (rb : String → String → Bool)
    (args : Args) :
    (successCount (runJobs ex rb args) = (runJobs ex rb args).length ↔
      ∀ f ∈ args.input, ex f = true ∧
        rb f (generate_output_path f args.output args.suffix) = true) := by
  unfold successCount runJobs
  rw [List.countP_map, List.length_map, List.countP_eq_length]
  constructor
  · intro h f hf
    exact (runJob_isWritten ex rb args f).mp (h f hf)
  · intro h f hf
    exact (runJob_isWritten ex rb args f).mpr (h f hf)

/-! ## Claim theorems -/

/-- Claim C1: for every RGBA buffer, threshold in `[0, 255]` and positive
boost, `invert_dark_colors` returns a buffer of exactly the same
dimensions whose alpha plane is bit-for-bit identical to the input's.
(Proved for all thresholds and boosts, which covers the claimed range.) -/
theorem invert_preserves_shape_and_alpha (img : Image) (t : ℤ) (boost : ℚ) :
    shape (invert_dark_colors img t boost) = shape img ∧
      alphaPlane (invert_dark_colors img t boost) = alphaPlane img := by
  constructor
  · simp [shape, invert_dark_colors, Function.comp]
  · simp [alphaPlane, invert_dark_colors, List.map_map, Function.comp, invertPixel_a]

/-- Claim C2, counterexample: the gray pixel `(128, 128, 128)` has exact
luma `128`, equal to the threshold, yet the float64 brightness of line 41
is `128 - 2 ^ (-46) < 128`, so at threshold 128 (and boost 1.0, where the
claim promises no change for any boost) the program classifies it dark
and inverts it to `(127, 127, 127)`. -/
theorem threshold_boundary_counterexample :
    lumaExact ⟨128, 128, 128, 0⟩ = ((128 : ℤ) : ℚ) ∧
      brightness ⟨128, 128, 128, 0⟩ = 128 * 2 ^ 56 - 2 ^ 10 ∧
      pixelAt (invert_dark_colors [[⟨128, 128, 128, 0⟩]] 128 1) 0 0 =
        some ⟨127, 127, 127, 0⟩ := by
  refine ⟨by norm_num [lumaExact], by decide, by decide⟩

/-- Claim C2, amended: the strict-less-than boundary is taken on the
float64 brightness, not the exact luma.  Every pixel whose float64
brightness is at or above the threshold is left unchanged by
`invert_dark_colors`, whatever the boost; but a pixel whose exact luma
equals the threshold can still fall strictly below after rounding and be
inverted and boosted — `(128, 128, 128)` at threshold 128 is dark. -/
theorem not_dark_pixel_unchanged :
    (∀ (img : Image) (t : ℤ) (boost : ℚ) (i j : ℕ) (p : Pixel),
        pixelAt img i j = some p → isDark p t = false →
          pixelAt (invert_dark_colors img t boost) i j = some p) ∧
      isDark ⟨128, 128, 128, 0⟩ 128 = true := by
  constructor
  · intro img t boost i j p hp h
    rw [invert_dark_colors, pixelAt_map, hp]
    simp [invertPixel, h]
  · decide

theorem not_dark_pixel_unchanged_witness :
    pixelAt (invert_dark_colors [[⟨200, 200, 200, 7⟩]] 128 (6 / 5)) 0 0 =
      some ⟨200, 200, 200, 7⟩ :=
  not_dark_pixel_unchanged.1 [[⟨200, 200, 200, 7⟩]] 128 (6 / 5) 0 0
    ⟨200, 200, 200, 7⟩ (by decide) (by decide)

/-- Claim C3, counterexample: the claim's notion of dark is "exact luma
strictly below the threshold".  The gray pixel `(95, 95, 95)` has exact
luma `95`, not below threshold 95, so the claim says it is untouched at
boost 1.0; but its float64 brightness is below 95 and the program
inverts it to `(160, 160, 160)`. -/
theorem boost_one_counterexample :
    ¬(lumaExact ⟨95, 95, 95, 0⟩ < ((95 : ℤ) : ℚ)) ∧
      pixelAt (invert_dark_colors [[⟨95, 95, 95, 0⟩]] 95 1) 0 0 =
        some ⟨160, 160, 160, 0⟩ := by
  refine ⟨by norm_num [lumaExact], by decide⟩

/-- Claim C3, amended: with `boost = 1.0` the float branch (lines 51-56)
is skipped, so every pixel the program classifies dark — float64
brightness strictly below the threshold, which is not always "exact luma
strictly below" — becomes exactly the `255 - c` complement with no
clamping, and all other pixels are untouched. -/
theorem boost_one_exact_complement (img : Image) (t : ℤ)
    (_ht0 : 0 ≤ t) (_ht1 : t ≤ 255) (i j : ℕ) :
    pixelAt (invert_dark_colors img t 1) i j =
      (pixelAt img i j).map fun p => if isDark p t then complement p else p := by
  rw [invert_dark_colors, pixelAt_map]
  cases hp : pixelAt img i j with
  | none => rfl
  | some p => simp [invertPixel, complement]

theorem boost_one_exact_complement_witness :
    pixelAt (invert_dark_colors [[⟨10, 20, 30, 9⟩]] 128 1) 0 0 =
      (pixelAt [[⟨10, 20, 30, 9⟩]] 0 0).map
        (fun p => if isDark p 128 then complement p else p) :=
  boost_one_exact_complement [[⟨10, 20, 30, 9⟩]] 128 (by decide) (by decide) 0 0

/-- Claim C4, counterexample: double inversion with the same threshold
and `boost = 1.0` does not restore the original RGB.  A solid-black
pixel at threshold 128 inverts to white; white's brightness 255 is not
below 128, so the second pass leaves it white. -/
theorem double_invert_not_identity :
    invert_dark_colors (invert_dark_colors [[⟨0, 0, 0, 255⟩]] 128 1) 128 1 ≠
      [[⟨0, 0, 0, 255⟩]] := by
  decide

/-- Claim C4, amended: double inversion with `boost = 1.0` restores a
(well-formed) pixel exactly when the program's float64 dark mask
classifies the pixel not dark, or classifies its complement dark.  In
general the image is not restored. -/
theorem double_invert_pixel_iff (p : Pixel) (t : ℤ) (h : wfPixel p) :
    invertPixel t 1 (invertPixel t 1 p) = p ↔
      (isDark p t = false ∨ isDark (complement p) t = true) := by
  cases hd : isDark p t with
  | false => simp [invertPixel, hd]
  | true =>
    have h1 : invertPixel t 1 p = complement p := by
      simp [invertPixel, hd, complement]
    rw [h1]
    cases hc : isDark (complement p) t with
    | false =>
      have h2 : invertPixel t 1 (complement p) = complement p := by
        unfold invertPixel
        rw [hc]
        simp
      rw [h2]
      simp [complement_ne p]
    | true =>
      have h2 : invertPixel t 1 (complement p) = complement (complement p) := by
        unfold invertPixel
        rw [hc]
        simp [complement]
      rw [h2, complement_complement p h]
      simp

theorem double_invert_pixel_iff_witness :
    wfPixel ⟨0, 0, 0, 255⟩ ∧
      (invertPixel 128 1 (invertPixel 128 1 ⟨0, 0, 0, 255⟩) = ⟨0, 0, 0, 255⟩ ↔
        (isDark ⟨0, 0, 0, 255⟩ 128 = false ∨
          isDark (complement ⟨0, 0, 0, 255⟩) 128 = true)) :=
  ⟨by decide, double_invert_pixel_iff ⟨0, 0, 0, 255⟩ 128 (by decide)⟩

/-- Claim C5: a provided non-empty explicit output is returned verbatim;
otherwise the result is the input's stem, then the suffix, then the fixed
`.png` extension, in the input's directory — in particular the two
concrete resolutions from the spec. -/
theorem output_path_resolution :
    (∀ input suffix o, o ≠ "" →
        generate_output_path input (some o) suffix = o) ∧
    (∀ input suffix,
        generate_output_path input none suffix =
          pyJoin (pyParent input) (pyStem input ++ suffix ++ ".png")) ∧
    generate_output_path "/a/b/photo.jpg" none "_nobg" = "/a/b/photo_nobg.png" ∧
    generate_output_path "/a/b/photo.jpg" (some "/x/custom.png") "_nobg" =
      "/x/custom.png" := by
  refine ⟨?_, ?_, ?_, ?_⟩
  · intro input suffix o ho
    simp [generate_output_path, truthy, String.isEmpty_iff, ho]
  · intro input suffix
    rfl
  · decide
  · decide

theorem output_path_resolution_witness :
    generate_output_path "in.jpg" (some "out.png") "_nobg" = "out.png" :=
  output_path_resolution.1 "in.jpg" "_nobg" "out.png" (by decide)

/-- Claim C6: once argument validation passes (at least one input, no
usage error), the exit status is `0` iff every supplied input existed and
its `remove_background` call succeeded, and `1` iff at least one input
failed. -/
theorem exit_code_iff_all_succeed (ex : String → Bool)
    (rb : String → String → Bool) (args : Args) (_hne : args.input ≠ [])
    (hval : ¬(truthy args.output = true ∧ 1 < args.input.length)) :
    ((mainModel ex rb args).1 = 0 ↔
      ∀ f ∈ args.input, ex f = true ∧
        rb f (generate_output_path f args.output args.suffix) = true) ∧
    ((mainModel ex rb args).1 = 1 ↔
      ∃ f ∈ args.input, ¬(ex f = true ∧
        rb f (generate_output_path f args.output args.suffix) = true)) := by
  have key := successCount_eq_length_iff ex rb args
  rw [mainModel, if_neg hval]
  by_cases hc : successCount (runJobs ex rb args) = (runJobs ex rb args).length
  · rw [if_pos hc]
    constructor
    · simpa using key.mp hc
    · constructor
      · intro h01
        cases h01
      · intro hex
        exfalso
        obtain ⟨f, hf, hnot⟩ := hex
        exact hnot (key.mp hc f hf)
  · rw [if_neg hc]
    constructor
    · constructor
      · intro h10
        cases h10
      · intro hall
        exact absurd (key.mpr hall) hc
    · constructor
      · intro _
        by_contra hno
        push_neg at hno
        exact hc (key.mpr hno)
      · intro _
        rfl

theorem exit_code_iff_all_succeed_witness :
    (mainModel (fun _ => true) (fun _ _ => true)
        { input := ["a.jpg"], output := none, suffix := "_nobg", fast := false,
          darkMode := false, invertThreshold := 128, brightnessBoost := 1,
          quiet := false }).1 = 0 :=
  (exit_code_iff_all_succeed (fun _ => true) (fun _ _ => true)
      { input := ["a.jpg"], output := none, suffix := "_nobg", fast := false,
        darkMode := false, invertThreshold := 128, brightnessBoost := 1,
        quiet := false } (by decide) (by decide)).1.mpr
    (by intro f _; exact ⟨rfl, rfl⟩)

/-- Claim C7: three inputs of which exactly the second is missing — the
missing path is recorded and the batch continues, the summary is 2
succeeded of 3 total, and the exit status is 1. -/
theorem batch_isolation_scenario :
    (mainModel (fun p => decide (p ≠ "b.jpg")) (fun _ _ => true)
          { input := ["a.jpg", "b.jpg", "c.jpg"], output := none,
            suffix := "_nobg", fast := false, darkMode := false,
            invertThreshold := 128, brightnessBoost := 1, quiet := false }).2 =
        [.written, .missing, .written] ∧
    batchSummary
        (mainModel (fun p => decide (p ≠ "b.jpg")) (fun _ _ => true)
            { input := ["a.jpg", "b.jpg", "c.jpg"], output := none,
              suffix := "_nobg", fast := false, darkMode := false,
              invertThreshold := 128, brightnessBoost := 1, quiet := false }).2 =
      (2, 3) ∧
    (mainModel (fun p => decide (p ≠ "b.jpg")) (fun _ _ => true)
          { input := ["a.jpg", "b.jpg", "c.jpg"], output := none,
            suffix := "_nobg", fast := false, darkMode := false,
            invertThreshold := 128, brightnessBoost := 1, quiet := false }).1 =
      1 := by
  refine ⟨?_, ?_, ?_⟩ <;> decide

/-- Claim C8: two or more inputs together with a truthy explicit
`--output` are rejected by `parser.error` before the loop: no job
runs and the exit status (2) is non-zero. -/
theorem usage_error_multi_input_output (ex : String → Bool)
    (rb : String → String → Bool) (args : Args)
    (h1 : truthy args.output = true) (h2 : 2 ≤ args.input.length) :
    (mainModel ex rb args).2 = [] ∧ (mainModel ex rb args).1 ≠ 0 := by
  rw [mainModel, if_pos ⟨h1, by omega⟩]
  exact ⟨rfl, by decide⟩

theorem usage_error_multi_input_output_witness :
    (mainModel (fun _ => true) (fun _ _ => true)
          { input := ["a.jpg", "b.jpg"], output := some "/x/out.png",
            suffix := "_nobg", fast := false, darkMode := false,
            invertThreshold := 128, brightnessBoost := 1, quiet := false }).2 =
        [] ∧
      (mainModel (fun _ => true) (fun _ _ => true)
          { input := ["a.jpg", "b.jpg"], output := some "/x/out.png",
            suffix := "_nobg", fast := false, darkMode := false,
            invertThreshold := 128, brightnessBoost := 1, quiet := false }).1 ≠
        0 :=
  usage_error_multi_input_output (fun _ => true) (fun _ _ => true)
    { input := ["a.jpg", "b.jpg"], output := some "/x/out.png",
      suffix := "_nobg", fast := false, darkMode := false,
      invertThreshold := 128, brightnessBoost := 1, quiet := false }
    (by decide) (by decide)

/-- Claim C9: a solid-white 2×2 RGBA image at threshold 128 is returned
with all RGB values unchanged for every positive boost (including
`boost ≠ 1.0`, which takes the float-conversion branch): white's float64
brightness 255 is not below 128, so no pixel is classified dark. -/
theorem white_image_unchanged (a1 a2 a3 a4 : ℕ) (boost : ℚ) (_hb : 0 < boost) :
    invert_dark_colors
        [[⟨255, 255, 255, a1⟩, ⟨255, 255, 255, a2⟩],
          [⟨255, 255, 255, a3⟩, ⟨255, 255, 255, a4⟩]] 128 boost =
      [[⟨255, 255, 255, a1⟩, ⟨255, 255, 255, a2⟩],
        [⟨255, 255, 255, a3⟩, ⟨255, 255, 255, a4⟩]] := by
  have hw : ∀ a : ℕ, invertPixel 128 boost ⟨255, 255, 255, a⟩ = ⟨255, 255, 255, a⟩ := by
    intro a
    have h0 : isDark ⟨255, 255, 255, 0⟩ 128 = false := by decide
    have hd : isDark ⟨255, 255, 255, a⟩ 128 = false := Eq.trans rfl h0
    simp [invertPixel, hd]
  simp [invert_dark_colors, hw]

theorem white_image_unchanged_witness :
    invert_dark_colors
        [[⟨255, 255, 255, 0⟩, ⟨255, 255, 255, 1⟩],
          [⟨255, 255, 255, 2⟩, ⟨255, 255, 255, 3⟩]] 128 (6 / 5) =
      [[⟨255, 255, 255, 0⟩, ⟨255, 255, 255, 1⟩],
        [⟨255, 255, 255, 2⟩, ⟨255, 255, 255, 3⟩]] :=
  white_image_unchanged 0 1 2 3 (6 / 5) (by norm_num)

/-- Claim C10: with the dark-mode flag disabled the saved image does not
depend on the invert-threshold or brightness-boost parameters — the
inverter is never invoked, so two runs differing only in those values
produce identical output. -/
theorem dark_mode_off_independent (segment : String → String → Image)
    (model_name input_path : String) (t1 t2 : ℤ) (b1 b2 : ℚ) :
    savedImage segment model_name input_path false t1 b1 =
      savedImage segment model_name input_path false t2 b2 := rfl
